import Mathlib

/-!
Shallow embedding of the walle_mqtt_protocol MQTT codec (v3.1.1 core plus the
v5 property codec) over byte streams modelled as `List Nat` (each element a
byte value `< 256`).  Pure Rust functions become Lean functions; `&mut Bytes`
readers become functions returning the value read together with the remaining
stream; fallible code returns `Except ProtoError`; code that can `unwrap` on an
`Err`/`None` (or `advance`/`get_u32` past the end of the buffer) returns `Res`,
whose `panic` constructor records process termination.
-/

namespace WalleMqtt

/-- Error type, from `src/error.rs` (`ProtoError`). -/
inductive ProtoError where
  | NotKnow
  | QoSError (v : Nat)
  | FixedHeaderLengthError (v : Nat)
  | DupValueError (v : Nat)
  | RetainValueError (v : Nat)
  | OutOfMaxRemainingLength (v : Nat)
  | ReadTopicError
  | DecodeGeneralVariableHeaderError
  | DecodeFixedHeaderError
  | EncodeVariableHeaderError
  | EncodeRemainingLengthError
  | UnsupportedVersion (v : Nat)
  | UnknownProperty (v : Nat)
  | InvalidPropertyLength (v : Nat)
  | InvalidReasonCode (v : Nat)
  | UnknownReasonCode (v : Nat)
  | MalformedUserProperty
  | InvalidAuthMethod
  | OutOfMaxPropertySize
  deriving DecidableEq

/-- Quality of service, from `src/lib.rs` (`QoS`). -/
inductive QoS where
  | AtMostOnce
  | AtLeastOnce
  | ExactlyOnce
  deriving DecidableEq

/-- `impl From<QoS> for u8` in `src/lib.rs`. -/
def qosToU8 : QoS → Nat
  | .AtMostOnce => 0
  | .AtLeastOnce => 1
  | .ExactlyOnce => 2

/-- `impl TryFrom<u8> for QoS` in `src/lib.rs`. -/
def qosTryFrom : Nat → Except ProtoError QoS
  | 0 => .ok .AtMostOnce
  | 1 => .ok .AtLeastOnce
  | 2 => .ok .ExactlyOnce
  | n => .error (.QoSError n)

/-- Packet type tag, from `src/lib.rs` (`MessageType`). -/
inductive MessageType where
  | CONNECT
  | CONNACK
  | PUBLISH
  | PUBACK
  | PUBREL
  | PUBREC
  | PUBCOMP
  | PINGREQ
  | PINGRESP
  | SUBSCRIBE
  | SUBACK
  | UNSUBSCRIBE
  | UNSUBACK
  | DISCONNECT
  deriving DecidableEq, Fintype

/-- Result of running a piece of Rust code that may also panic (an `unwrap`
on an error, or a buffer read past the end of the stream). -/
inductive Res (α : Type) where
  | ok (a : α)
  | err (e : ProtoError)
  | panic
  deriving DecidableEq

/-- Lift an `Except` computation (which cannot panic) into `Res`. -/
def Res.ofExcept {α : Type} : Except ProtoError α → Res α
  | .ok a => .ok a
  | .error e => .err e

/-- Decidable equality of `Except` results (not provided by the core
library). -/
instance {ε α : Type} [DecidableEq ε] [DecidableEq α] :
    DecidableEq (Except ε α) := fun x y =>
  match x, y with
  | .ok a, .ok b =>
      if h : a = b then isTrue (by rw [h]) else isFalse (by simp [h])
  | .error a, .error b =>
      if h : a = b then isTrue (by rw [h]) else isFalse (by simp [h])
  | .ok _, .error _ => isFalse (by simp)
  | .error _, .ok _ => isFalse (by simp)

/-- Big-endian 2-byte encoding of a length or id, as written by
`BytesMut::put_u16` after the Rust `as u16` truncation. -/
def u16be (n : Nat) : List Nat := [n / 256 % 256, n % 256]

/-- Big-endian 4-byte encoding, as written by `BytesMut::put_u32`. -/
def u32be (n : Nat) : List Nat :=
  [n / 16777216 % 256, n / 65536 % 256, n / 256 % 256, n % 256]

/-- `read_u8` from `src/v4/decoder.rs` (also `src/common/coder.rs`): one byte
or `NotKnow` on an empty stream. -/
def read_u8 : List Nat → Except ProtoError (Nat × List Nat)
  | [] => .error .NotKnow
  | b :: rest => .ok (b, rest)

/-- `read_u16` from `src/v4/decoder.rs` (also `src/common/coder.rs`):
big-endian `u16`, `NotKnow` when fewer than 2 bytes remain. -/
def read_u16 : List Nat → Except ProtoError (Nat × List Nat)
  | b0 :: b1 :: rest => .ok (b0 * 256 + b1, rest)
  | _ => .error .NotKnow

/-- `read_mqtt_bytes` from `src/v4/decoder.rs`: 2-byte length prefix followed
by that many raw bytes; `NotKnow` when the declared length exceeds the
remaining stream. -/
def read_mqtt_bytes (s : List Nat) : Except ProtoError (List Nat × List Nat) :=
  match read_u16 s with
  | .error e => .error e
  | .ok (len, rest) =>
      if len > rest.length then .error .NotKnow
      else .ok (rest.take len, rest.drop len)

/-- Continuation byte test of RFC 3629 UTF-8 (`0x80 ..= 0xBF`). -/
def utf8Cont (c : Nat) : Bool := 0x80 ≤ c && c ≤ 0xBF

/-- Validity of a byte sequence as UTF-8, as checked by Rust's
`String::from_utf8` (RFC 3629: surrogates and values above U+10FFFF are
rejected, overlong forms are rejected). -/
def utf8Valid : List Nat → Bool
  | [] => true
  | b :: rest =>
    if b ≤ 0x7F then utf8Valid rest
    else if 0xC2 ≤ b ∧ b ≤ 0xDF then
      match rest with
      | c1 :: r => utf8Cont c1 && utf8Valid r
      | _ => false
    else if b = 0xE0 then
      match rest with
      | c1 :: c2 :: r => (0xA0 ≤ c1 && c1 ≤ 0xBF) && utf8Cont c2 && utf8Valid r
      | _ => false
    else if 0xE1 ≤ b ∧ b ≤ 0xEC then
      match rest with
      | c1 :: c2 :: r => utf8Cont c1 && utf8Cont c2 && utf8Valid r
      | _ => false
    else if b = 0xED then
      match rest with
      | c1 :: c2 :: r => (0x80 ≤ c1 && c1 ≤ 0x9F) && utf8Cont c2 && utf8Valid r
      | _ => false
    else if 0xEE ≤ b ∧ b ≤ 0xEF then
      match rest with
      | c1 :: c2 :: r => utf8Cont c1 && utf8Cont c2 && utf8Valid r
      | _ => false
    else if b = 0xF0 then
      match rest with
      | c1 :: c2 :: c3 :: r =>
          (0x90 ≤ c1 && c1 ≤ 0xBF) && utf8Cont c2 && utf8Cont c3 && utf8Valid r
      | _ => false
    else if 0xF1 ≤ b ∧ b ≤ 0xF3 then
      match rest with
      | c1 :: c2 :: c3 :: r =>
          utf8Cont c1 && utf8Cont c2 && utf8Cont c3 && utf8Valid r
      | _ => false
    else if b = 0xF4 then
      match rest with
      | c1 :: c2 :: c3 :: r =>
          (0x80 ≤ c1 && c1 ≤ 0x8F) && utf8Cont c2 && utf8Cont c3 && utf8Valid r
      | _ => false
    else false

/-- `read_mqtt_string` from `src/v4/decoder.rs`: a length-prefixed byte field
that must additionally be valid UTF-8 (`String::from_utf8` failure maps to
`NotKnow`); the string value is kept as its byte sequence. -/
def read_mqtt_string (s : List Nat) : Except ProtoError (List Nat × List Nat) :=
  match read_mqtt_bytes s with
  | .error e => .error e
  | .ok (bs, rest) => if utf8Valid bs then .ok (bs, rest) else .error .NotKnow

/-- Fixed header record, from `src/v4/fixed_header.rs` (`FixedHeader`). -/
structure FixedHeader where
  message_type : MessageType
  dup : Option Bool
  qos : Option QoS
  retain : Option Bool
  remaining_length : Nat
  len : Nat
  deriving DecidableEq

/-- `FixedHeader::set_remaining_length`. -/
def FixedHeader.set_remaining_length (fh : FixedHeader) (n : Nat) : FixedHeader :=
  { fh with remaining_length := n }

/-- `FixedHeader::set_len`. -/
def FixedHeader.set_len (fh : FixedHeader) (n : Nat) : FixedHeader :=
  { fh with len := n }

/-- `ONE_BYTE_MAX_LEN` from `src/v4/publish.rs`. -/
def ONE_BYTE_MAX_LEN : Nat := 127
/-- `TWO_BYTE_MAX_LEN` from `src/v4/publish.rs`. -/
def TWO_BYTE_MAX_LEN : Nat := 16383
/-- `THREE_BYTE_MAX_LEN` from `src/v4/publish.rs`. -/
def THREE_BYTE_MAX_LEN : Nat := 2097151
/-- `FOUR_BYTE_MAX_LEN` from `src/v4/publish.rs`. -/
def FOUR_BYTE_MAX_LEN : Nat := 268435455

/-- `remaining_length_len` from `src/v4/fixed_header.rs`: byte count of the
varint for a given remaining length (note the strict `<` comparisons). -/
def remaining_length_len (remaining_length : Nat) : Except ProtoError Nat :=
  if remaining_length < ONE_BYTE_MAX_LEN then .ok 1
  else if remaining_length < TWO_BYTE_MAX_LEN then .ok 2
  else if remaining_length < THREE_BYTE_MAX_LEN then .ok 3
  else if remaining_length < FOUR_BYTE_MAX_LEN then .ok 4
  else .error .NotKnow

/-- Builder record, from `src/v4/fixed_header.rs` (`FixedHeaderBuilder`). -/
structure FixedHeaderBuilder where
  message_type : MessageType
  dup : Option Bool
  qos : Option QoS
  retain : Option Bool
  remaining_length : Nat

/-- `FixedHeaderBuilder::from_message_type`. -/
def FixedHeaderBuilder.from_message_type (mt : MessageType) : FixedHeaderBuilder :=
  { message_type := mt, dup := none, qos := none, retain := none,
    remaining_length := 0 }

/-- `FixedHeaderBuilder::dup`. -/
def FixedHeaderBuilder.with_dup (b : FixedHeaderBuilder) (d : Option Bool) :
    FixedHeaderBuilder := { b with dup := d }

/-- `FixedHeaderBuilder::qos`. -/
def FixedHeaderBuilder.with_qos (b : FixedHeaderBuilder) (q : Option QoS) :
    FixedHeaderBuilder := { b with qos := q }

/-- `FixedHeaderBuilder::retain`. -/
def FixedHeaderBuilder.with_retain (b : FixedHeaderBuilder) (r : Option Bool) :
    FixedHeaderBuilder := { b with retain := r }

/-- `FixedHeaderBuilder::build`: the header length is one byte for the first
byte plus the varint length of the remaining length. -/
def FixedHeaderBuilder.build (b : FixedHeaderBuilder) :
    Except ProtoError FixedHeader :=
  match remaining_length_len b.remaining_length with
  | .ok size =>
      .ok { message_type := b.message_type, dup := b.dup, qos := b.qos,
            retain := b.retain, remaining_length := b.remaining_length,
            len := size + 1 }
  | .error e => .error e

/-- `check_fixed_header_type` from `src/v4/decoder.rs`: top nibble of the
first byte selects the packet type; nibble 0 or 15 is `NotKnow`. -/
def check_fixed_header_type (byte1 : Nat) : Except ProtoError MessageType :=
  match byte1 >>> 4 with
  | 1 => .ok .CONNECT
  | 2 => .ok .CONNACK
  | 3 => .ok .PUBLISH
  | 4 => .ok .PUBACK
  | 5 => .ok .PUBREC
  | 6 => .ok .PUBREL
  | 7 => .ok .PUBCOMP
  | 8 => .ok .SUBSCRIBE
  | 9 => .ok .SUBACK
  | 10 => .ok .UNSUBSCRIBE
  | 11 => .ok .UNSUBACK
  | 12 => .ok .PINGREQ
  | 13 => .ok .PINGRESP
  | 14 => .ok .DISCONNECT
  | _ => .error .NotKnow

/-- PUBLISH arm of `check_fixed_header_options` after the dup bit has been
read: the retain bit is read and the header is built. -/
def publish_after_qos (b : FixedHeaderBuilder) (low_4 : Nat)
    (dupv : Option Bool) (qosv : Option QoS) : Except ProtoError FixedHeader :=
  match low_4 &&& 0b00000001 with
  | 0 => (((b.with_dup dupv).with_qos qosv).with_retain (some false)).build
  | 1 => (((b.with_dup dupv).with_qos qosv).with_retain (some true)).build
  | x + 2 => .error (.RetainValueError (x + 2))

/-- PUBLISH arm of `check_fixed_header_options` after the dup bit: bits 2-1
select the QoS (value 3 is `QoSError`), then the retain bit is read. -/
def publish_after_dup (b : FixedHeaderBuilder) (low_4 : Nat)
    (dupv : Option Bool) : Except ProtoError FixedHeader :=
  match (low_4 &&& 0b00000110) >>> 1 with
  | 0 => publish_after_qos b low_4 dupv (some .AtMostOnce)
  | 1 => publish_after_qos b low_4 dupv (some .AtLeastOnce)
  | 2 => publish_after_qos b low_4 dupv (some .ExactlyOnce)
  | x + 3 => .error (.QoSError (x + 3))

/-- PUBREL/SUBSCRIBE/UNSUBSCRIBE arm of `check_fixed_header_options` after the
dup bit: bits 2-1 must be exactly `01` (else `NotKnow`), then the retain bit
is read and the header is built with `qos = None`. -/
def pubrel_after_dup (b : FixedHeaderBuilder) (low_4 : Nat)
    (dupv : Option Bool) : Except ProtoError FixedHeader :=
  match (low_4 &&& 0b00000110) >>> 1 with
  | 1 =>
      match low_4 &&& 0b00000001 with
      | 0 => (((b.with_dup dupv).with_qos none).with_retain (some false)).build
      | 1 => (((b.with_dup dupv).with_qos none).with_retain (some true)).build
      | x + 2 => .error (.RetainValueError (x + 2))
  | _ => .error .NotKnow

/-- `check_fixed_header_options` from `src/v4/decoder.rs`: packet-type
dependent validation of the low nibble of the first byte. -/
def check_fixed_header_options (byte1 : Nat) (message_type : MessageType) :
    Except ProtoError FixedHeader :=
  let fixed_header_builder := FixedHeaderBuilder.from_message_type message_type
  let low_4 := byte1 &&& 0b00001111
  match message_type with
  | .PUBLISH =>
      match low_4 >>> 3 with
      | 0 => publish_after_dup fixed_header_builder low_4 (some false)
      | 1 => publish_after_dup fixed_header_builder low_4 (some true)
      | x + 2 => .error (.DupValueError (x + 2))
  | .PUBREL | .SUBSCRIBE | .UNSUBSCRIBE =>
      match low_4 >>> 3 with
      | 0 => pubrel_after_dup fixed_header_builder low_4 (some false)
      | 1 => pubrel_after_dup fixed_header_builder low_4 (some true)
      | x + 2 => .error (.DupValueError (x + 2))
  | _ =>
      match low_4 &&& 0b00001111 with
      | 0 =>
          (((fixed_header_builder.with_dup (some false)).with_qos none).with_retain
            (some false)).build
      | _ + 1 => .error .NotKnow

/-- Loop body of `check_remain_length` from `src/v4/decoder.rs`: accumulates
`(byte & 0x7F) << shift`, stops when the continuation bit `0x80` is clear,
errors when the shift passes 21 or the stream ends first.  Returns the decoded
remaining length together with the fixed-header length counter. -/
def check_remain_length_loop :
    List Nat → Nat → Nat → Nat → Except ProtoError (Nat × Nat)
  | [], _, _, _ => .error .NotKnow
  | b :: rest, shift, len, fixed_header_len =>
      let fixed_header_len := fixed_header_len + 1
      let len := len + (b &&& 0x7F) <<< shift
      if b &&& 0x80 = 0 then .ok (len, fixed_header_len)
      else
        let shift := shift + 7
        if shift > 21 then .error .NotKnow
        else check_remain_length_loop rest shift len fixed_header_len

/-- `check_remain_length` from `src/v4/decoder.rs`: runs the varint loop on
the stream after the first byte and stores remaining length and header
length into the fixed header. -/
def check_remain_length (stream : List Nat) (fixed_header : FixedHeader) :
    Except ProtoError FixedHeader :=
  match check_remain_length_loop stream 0 0 1 with
  | .ok (len, fixed_header_len) =>
      .ok ((fixed_header.set_remaining_length len).set_len fixed_header_len)
  | .error e => .error e

/-- `read_fixed_header` from `src/v4/decoder.rs`.  The guard keeps the exact
(unsatisfiable) condition `stream_len < 2 && stream_len > 5` of the source;
`iter.next().unwrap()` on an empty stream is a panic. -/
def read_fixed_header (stream : List Nat) : Res FixedHeader :=
  let stream_len := stream.length
  if stream_len < 2 ∧ stream_len > 5 then
    .err (.FixedHeaderLengthError stream_len)
  else
    match stream with
    | [] => .panic
    | byte1 :: rest =>
        match check_fixed_header_type byte1 with
        | .ok message_type =>
            match check_fixed_header_options byte1 message_type with
            | .ok fixed_header =>
                Res.ofExcept (check_remain_length rest fixed_header)
            | .error e => .err e
        | .error e => .err e

/-- `encode_remaining_len` from `src/v4/fixed_header.rs`: branch on the
`*_MAX_LEN` constants with strict `<`, emitting 1-4 bytes (continuation bit
added to all but the last byte of the chosen branch), or
`OutOfMaxRemainingLength`.  Returns the bytes appended to the buffer and the
byte count that the source returns. -/
def encode_remaining_len (remaining_len : Nat) :
    Except ProtoError (List Nat × Nat) :=
  if remaining_len < ONE_BYTE_MAX_LEN then
    .ok ([remaining_len % 256], 1)
  else if remaining_len < TWO_BYTE_MAX_LEN then
    let byte2_data := remaining_len / 128
    let byte1 := remaining_len % 128
    let byte1 := byte1 + 128
    let byte2 := byte2_data % 128
    .ok ([byte1 % 256, byte2 % 256], 2)
  else if remaining_len < THREE_BYTE_MAX_LEN then
    let byte2_data := remaining_len / 128
    let byte3_data := byte2_data / 128
    let byte1 := remaining_len % 128
    let byte1 := byte1 + 128
    let byte2 := byte2_data % 128
    let byte2 := byte2 + 128
    let byte3 := byte3_data % 128
    .ok ([byte1 % 256, byte2 % 256, byte3 % 256], 3)
  else if remaining_len < FOUR_BYTE_MAX_LEN then
    let byte2_data := remaining_len / 128
    let byte3_data := byte2_data / 128
    let byte4_data := byte3_data / 128
    let byte1 := remaining_len % 128
    let byte1 := byte1 + 128
    let byte2 := byte2_data % 128
    let byte2 := byte2 + 128
    let byte3 := byte3_data % 128
    let byte3 := byte3 + 128
    let byte4 := byte4_data % 128
    .ok ([byte1 % 256, byte2 % 256, byte3 % 256, byte4 % 256], 4)
  else .error (.OutOfMaxRemainingLength remaining_len)

/-- `publish_fixed_header_encode` from `src/v4/fixed_header.rs`.  The first
byte starts at `0b0000_0000`; only the QoS-1/QoS-2 arms `or` in the PUBLISH
type nibble `0b0011_0000` (the `AtMostOnce` arm does nothing); then the dup
and retain bits are `or`-ed in.  The three `unwrap`s panic when the option is
`None`.  Returns the appended bytes and the count the source returns. -/
def publish_fixed_header_encode (fixed_header : FixedHeader) :
    Res (List Nat × Nat) :=
  match fixed_header.qos with
  | none => .panic
  | some qos =>
      let byte1 : Nat := 0b00000000
      let byte1 : Nat :=
        match qos with
        | .AtMostOnce => byte1
        | .AtLeastOnce => 0b00110000 ||| 0b00000010
        | .ExactlyOnce => 0b00110000 ||| 0b00000100
      match fixed_header.dup with
      | none => .panic
      | some dup =>
          let byte1 := if dup then byte1 ||| 0b00001000 else byte1
          match fixed_header.retain with
          | none => .panic
          | some retain =>
              let byte1 := if retain then byte1 ||| 0b00000001 else byte1
              match encode_remaining_len fixed_header.remaining_length with
              | .ok (bs, size) => .ok (byte1 :: bs, 1 + size)
              | .error e => .err e

/-- Publish variable header, from `src/v4/publish.rs`
(`PublishVariableHeader`); the topic is kept as its byte sequence. -/
structure PublishVariableHeader where
  variable_header_len : Nat
  topic : List Nat
  message_id : Option Nat
  deriving DecidableEq

/-- `PublishVariableHeader::variable_len`: topic length plus 2, plus 2 more
when the QoS is present and not `AtMostOnce`. -/
def PublishVariableHeader.variable_len (topic : List Nat) (qos : Option QoS) :
    Nat :=
  match qos with
  | some qos => if qos = .AtMostOnce then topic.length + 2 else topic.length + 4
  | none => topic.length + 2

/-- `PublishVariableHeader::new`. -/
def PublishVariableHeader.new (topic : List Nat) (message_id : Option Nat)
    (qos : Option QoS) : PublishVariableHeader :=
  { variable_header_len := PublishVariableHeader.variable_len topic qos,
    topic := topic, message_id := message_id }

/-- `impl Encoder for PublishVariableHeader`: topic length prefix, topic
bytes, then the message id when present; the returned count is the stored
`variable_header_len` in both arms. -/
def PublishVariableHeader.encode (vh : PublishVariableHeader) :
    Except ProtoError (List Nat × Nat) :=
  let bs := u16be vh.topic.length ++ vh.topic
  match vh.message_id with
  | some msg_id => .ok (bs ++ u16be msg_id, vh.variable_header_len)
  | none => .ok (bs, vh.variable_header_len)

/-- `impl VariableDecoder for PublishVariableHeader`: read the topic, then —
only when the QoS is present and not `AtMostOnce` — `read_u16(bytes).unwrap()`
reads the message id (the `unwrap` panics on a truncated stream). -/
def publish_variable_header_decode (bytes : List Nat) (qos : Option QoS) :
    Res (PublishVariableHeader × List Nat) :=
  match read_mqtt_string bytes with
  | .ok (topic, rest) =>
      match qos with
      | some qos =>
          if qos = .AtMostOnce then
            .ok (PublishVariableHeader.new topic none (some .AtMostOnce), rest)
          else
            match read_u16 rest with
            | .ok (message_id, rest2) =>
                .ok (PublishVariableHeader.new topic (some message_id)
                      (some qos), rest2)
            | .error _ => .panic
      | none => .ok (PublishVariableHeader.new topic none none, rest)
  | .error e => .err e

/-- Publish packet, from `src/v4/publish.rs` (`Publish`). -/
structure Publish where
  fixed_header : FixedHeader
  variable_header : PublishVariableHeader
  payload : List Nat
  deriving DecidableEq

/-- `impl Encoder for Publish`: fixed header, then (after an unused
`qos().unwrap()` that panics when the QoS is absent) variable header, then the
raw payload; the count is the sum of the three parts. -/
def Publish.encode (p : Publish) : Res (List Nat × Nat) :=
  match publish_fixed_header_encode p.fixed_header with
  | .ok (fixed_bytes, fixed_header_len) =>
      match p.fixed_header.qos with
      | none => .panic
      | some _ =>
          match p.variable_header.encode with
          | .ok (variable_bytes, variable_header_len) =>
              .ok (fixed_bytes ++ variable_bytes ++ p.payload,
                   fixed_header_len + variable_header_len + p.payload.length)
          | .error e => .err e
  | .err e => .err e
  | .panic => .panic

/-- `impl Decoder for Publish`: read the fixed header (which does not consume
the stream), `advance` past it (a panic when it is longer than the buffer),
decode the variable header with the header's QoS, and keep the remainder as
the payload. -/
def Publish.decode (bytes : List Nat) : Res Publish :=
  match read_fixed_header bytes with
  | .ok fixed_header =>
      let variable_header_index := fixed_header.len
      if variable_header_index > bytes.length then .panic
      else
        match publish_variable_header_decode (bytes.drop variable_header_index)
            fixed_header.qos with
        | .ok (variable_header, payload) =>
            .ok { fixed_header := fixed_header,
                  variable_header := variable_header, payload := payload }
        | .err e => .err e
        | .panic => .panic
  | .err e => .err e
  | .panic => .panic

/-- Topic value object, from `src/lib.rs` (`Topic`); the name is kept as its
byte sequence. -/
structure Topic where
  name : List Nat
  qos : QoS
  name_len : Nat
  deriving DecidableEq

/-- `Topic::new`: stores the name's length alongside it. -/
def Topic.new (name : List Nat) (qos : QoS) : Topic :=
  { name := name, qos := qos, name_len := name.length }

/-- `impl Encoder for Topic` in `src/lib.rs`: stored length as a `u16`
prefix, name bytes, QoS byte; the count is `name_len + 3`. -/
def Topic.encodeBytes (t : Topic) : List Nat :=
  u16be t.name_len ++ t.name ++ [qosToU8 t.qos]

/-- Length bound used by the topic loops: `read_mqtt_bytes` consumes at
least its 2-byte length prefix. -/
theorem read_mqtt_bytes_len {s t r : List Nat}
    (h : read_mqtt_bytes s = .ok (t, r)) : r.length + 2 ≤ s.length := by
  match s with
  | [] => simp [read_mqtt_bytes, read_u16] at h
  | [b] => simp [read_mqtt_bytes, read_u16] at h
  | b0 :: b1 :: rest =>
      simp only [read_mqtt_bytes, read_u16] at h
      split at h
      · exact absurd h (by simp)
      · simp only [Except.ok.injEq, Prod.mk.injEq] at h
        obtain ⟨h1, h2⟩ := h
        subst h2
        simp only [List.length_drop, List.length_cons]
        omega

/-- Length bound used by the topic loops: `read_mqtt_string` consumes at
least its 2-byte length prefix. -/
theorem read_mqtt_string_len {s t r : List Nat}
    (h : read_mqtt_string s = .ok (t, r)) : r.length + 2 ≤ s.length := by
  unfold read_mqtt_string at h
  match hb : read_mqtt_bytes s with
  | .error e => rw [hb] at h; exact absurd h (by simp)
  | .ok (bs, rest) =>
      rw [hb] at h
      simp only at h
      split at h
      · simp only [Except.ok.injEq, Prod.mk.injEq] at h
        obtain ⟨h1, h2⟩ := h
        subst h2
        exact read_mqtt_bytes_len hb
      · exact absurd h (by simp)

/-- `Topic::read_topics` from `src/lib.rs`: read a name and a QoS byte per
filter until the buffer is empty; a failing name or QoS-byte read is
`ReadTopicError`, an invalid QoS byte propagates `QoSError`. -/
def read_topics : List Nat → Except ProtoError (List Topic)
  | [] => .ok []
  | b :: bs =>
      match hs : read_mqtt_string (b :: bs) with
      | .ok (topic_name, s1) =>
          match hu : read_u8 s1 with
          | .ok (q, s2) =>
              match qosTryFrom q with
              | .ok qos =>
                  match read_topics s2 with
                  | .ok resp => .ok (Topic.new topic_name qos :: resp)
                  | .error e => .error e
              | .error e => .error e
          | .error _ => .error .ReadTopicError
      | .error _ => .error .ReadTopicError
  termination_by s => s.length
  decreasing_by
    have h1 := read_mqtt_string_len hs
    cases s1 with
    | nil => exact absurd hu (by simp [read_u8])
    | cons a as =>
        simp only [read_u8] at hu
        cases hu
        simp only [List.length_cons] at h1 ⊢
        omega

/-- Topic loop of `impl Decoder for UnSubscribe` in `src/v4/un_subscribe.rs`:
read plain MQTT strings until the buffer is empty; a failing read propagates
its error (no partial list). -/
def read_unsub_topics : List Nat → Except ProtoError (List (List Nat))
  | [] => .ok []
  | b :: bs =>
      match hs : read_mqtt_string (b :: bs) with
      | .ok (topic, rest) =>
          match read_unsub_topics rest with
          | .ok topices => .ok (topic :: topices)
          | .error e => .error e
      | .error e => .error e
  termination_by s => s.length
  decreasing_by
    have h1 := read_mqtt_string_len hs
    simp only [List.length_cons] at h1 ⊢
    omega

/-- MQTT v5 property set, from `src/v5/connect.rs` (`Properties`); strings
are kept as byte sequences. -/
structure Properties where
  session_expiry_interval : Option Nat
  receive_maximum : Option Nat
  user_properties : List (List Nat × List Nat)
  deriving DecidableEq

/-- Bytes of one encoded user property in `impl Encoder for Properties`:
identifier `0x26`, length-prefixed key, length-prefixed value. -/
def user_property_bytes (kv : List Nat × List Nat) : List Nat :=
  0x26 :: (u16be kv.1.length ++ kv.1 ++ u16be kv.2.length ++ kv.2)

/-- User-property loop of `impl Encoder for Properties` in
`src/v5/connect.rs`: before writing an entry the running total plus the
entry's length is checked against 65,535; on overflow the loop stops with
`OutOfMaxPropertySize` and the entry is not written.  Returns the bytes
appended by the loop together with the source's result. -/
def encode_user_properties :
    List (List Nat × List Nat) → Nat → List Nat × Except ProtoError Nat
  | [], total_len => ([], .ok total_len)
  | (key, value) :: rest, total_len =>
      let entry_len := 1 + 2 + key.length + 2 + value.length
      if total_len + entry_len > 65535 then ([], .error .OutOfMaxPropertySize)
      else
        let bs := user_property_bytes (key, value)
        let (bs2, r) := encode_user_properties rest (total_len + entry_len)
        (bs ++ bs2, r)

/-- `impl Encoder for Properties` in `src/v5/connect.rs`: optional session
expiry interval (`0x11`, 5 bytes), optional receive maximum (`0x12`,
3 bytes), then the user-property loop.  Returns the bytes written to the
buffer (also on the error path, where the buffer keeps what was written
before the failing entry) together with the source's result. -/
def Properties.encode (p : Properties) : List Nat × Except ProtoError Nat :=
  let (b1, t1) :=
    match p.session_expiry_interval with
    | some expiry => (0x11 :: u32be expiry, 5)
    | none => (([] : List Nat), 0)
  let (b2, t2) :=
    match p.receive_maximum with
    | some max => (0x12 :: u16be max, 3)
    | none => (([] : List Nat), 0)
  let (b3, r) := encode_user_properties p.user_properties (t1 + t2)
  (b1 ++ b2 ++ b3, r)

/-- `impl Decoder for Properties` in `src/v5/connect.rs`: loop while bytes
remain; `0x11` reads a `u32` (`get_u32` panics when fewer than 4 bytes
remain), `0x12` reads a `u16`, `0x26` reads a length-prefixed key and value
(errors propagate), and any other identifier is `NotKnow`. -/
def Properties.decode_loop (props : Properties) :
    List Nat → Res Properties
  | [] => .ok props
  | b :: rest =>
      if b = 0x11 then
        match rest with
        | a0 :: a1 :: a2 :: a3 :: r =>
            let v := a0 * 16777216 + a1 * 65536 + a2 * 256 + a3
            Properties.decode_loop
              { props with session_expiry_interval := some v } r
        | _ => .panic
      else if b = 0x12 then
        match rest with
        | a0 :: a1 :: r =>
            Properties.decode_loop
              { props with receive_maximum := some (a0 * 256 + a1) } r
        | _ => .panic
      else if b = 0x26 then
        match hk : read_mqtt_string rest with
        | .ok (key, r1) =>
            match hv : read_mqtt_string r1 with
            | .ok (value, r2) =>
                Properties.decode_loop
                  { props with user_properties :=
                      props.user_properties ++ [(key, value)] } r2
            | .error e => .err e
        | .error e => .err e
      else .err .NotKnow
  termination_by s => s.length
  decreasing_by
    · simp only [List.length_cons]; omega
    · simp only [List.length_cons]; omega
    · have h1 := read_mqtt_string_len hk
      have h2 := read_mqtt_string_len hv
      simp only [List.length_cons] at h1 ⊢
      omega

/-- `Properties::default()` (all fields empty). -/
def Properties.default : Properties :=
  { session_expiry_interval := none, receive_maximum := none,
    user_properties := [] }

/-- `impl Decoder for Properties`: run the loop from the default value. -/
def Properties.decode (bytes : List Nat) : Res Properties :=
  Properties.decode_loop Properties.default bytes

/-- Reference varint decoder written from the specification text: read
bytes, accumulate `byte & 0x7F` left-shifted by `7 * index`, stop at the
first byte whose continuation bit `0x80` is clear; `none` when no
terminating byte appears within 4 bytes or the stream ends first.  Returns
the value and the number of bytes consumed. -/
def spec_decode_remaining_length_from :
    List Nat → Nat → Nat → Option (Nat × Nat)
  | [], _, _ => none
  | b :: rest, index, acc =>
      let acc := acc + (b &&& 0x7F) <<< (7 * index)
      if b &&& 0x80 = 0 then some (acc, index + 1)
      else if index + 1 ≥ 4 then none
      else spec_decode_remaining_length_from rest (index + 1) acc

/-- Reference varint decoder at the start of its stream. -/
def spec_decode_remaining_length (s : List Nat) : Option (Nat × Nat) :=
  spec_decode_remaining_length_from s 0 0

/-- The QoS-0 publish of the repository's own `publish_to_bytes` test:
topic `/test`, payload `hello world !`, dup and retain false, built the way
`PublishBuilder::build` builds it (message id `None`, remaining length
`(5 + 2) + 13 = 20`, header length 2). -/
def publish_qos0_example : Publish :=
  { fixed_header :=
      { message_type := .PUBLISH, dup := some false, qos := some .AtMostOnce,
        retain := some false, remaining_length := 20, len := 2 },
    variable_header :=
      PublishVariableHeader.new [47, 116, 101, 115, 116] none
        (some .AtMostOnce),
    payload := [104, 101, 108, 108, 111, 32, 119, 111, 114, 108, 100, 32, 33] }

/-- The bytes `Publish::encode` produces for `publish_qos0_example`: note the
first byte is `0x00` — the `AtMostOnce` arm of `publish_fixed_header_encode`
never writes the PUBLISH type nibble `0b0011_0000`. -/
def publish_qos0_example_bytes : List Nat :=
  [0, 20, 0, 5, 47, 116, 101, 115, 116,
   104, 101, 108, 108, 111, 32, 119, 111, 114, 108, 100, 32, 33]

/-- Classifier for the `FixedHeaderLengthError` variant. -/
def is_fhle : ProtoError → Bool
  | .FixedHeaderLengthError _ => true
  | _ => false

/-- Step 2 of `PublishBuilder::build` in `src/v4/builder.rs`: with QoS 0 the
variable header is built with no message id; otherwise the builder's message
id is kept. -/
def publish_builder_variable_header (topic : List Nat)
    (message_id : Option Nat) (qos : QoS) : PublishVariableHeader :=
  if qos = .AtMostOnce then
    PublishVariableHeader.new topic none (some .AtMostOnce)
  else PublishVariableHeader.new topic message_id (some qos)

/-- `write_mqtt_string`/`write_mqtt_bytes` from `src/v4/decoder.rs`: 2-byte
length prefix followed by the raw bytes. -/
def write_mqtt_string_bytes (s : List Nat) : List Nat :=
  u16be s.length ++ s

/-- Well-formedness of a `Topic` value as `Topic::new` constructs it: the
stored length is the name's length, the name fits a `u16` prefix and is
valid UTF-8. -/
def wf_topic (t : Topic) : Prop :=
  t.name_len = t.name.length ∧ t.name.length < 65536
    ∧ utf8Valid t.name = true

/-- A buffer tail that is a dangling/truncated length prefix: a lone length
byte, or a 2-byte length prefix promising more bytes than remain. -/
def truncated_len_field : List Nat → Prop
  | [] => False
  | [_] => True
  | b0 :: b1 :: r => b0 * 256 + b1 > r.length

/-- Total encoded size of a user-property list, entry by entry
(`1 + 2 + key.len() + 2 + value.len()` each). -/
def user_properties_len (l : List (List Nat × List Nat)) : Nat :=
  (l.map (fun kv => 1 + 2 + kv.1.length + 2 + kv.2.length)).sum

/-- Running total contributed by the two fixed optional properties before
the user-property loop starts (5 bytes for `0x11`, 3 bytes for `0x12`). -/
def properties_fixed_len (p : Properties) : Nat :=
  (match p.session_expiry_interval with
   | some _ => 5
   | none => 0)
  + (match p.receive_maximum with
     | some _ => 3
     | none => 0)

/-- Bytes written for the two fixed optional properties before the
user-property loop starts. -/
def properties_fixed_bytes (p : Properties) : List Nat :=
  (match p.session_expiry_interval with
   | some expiry => 0x11 :: u32be expiry
   | none => [])
  ++ (match p.receive_maximum with
      | some max => 0x12 :: u16be max
      | none => [])

/-- A 65,531-byte user-property key (one `a` repeated), used to exercise the
property-size bound. -/
def big_key : List Nat := List.replicate 65531 97

/-- A property set whose single user property is 65,536 encoded bytes. -/
def oversized_properties : Properties :=
  { session_expiry_interval := none, receive_maximum := none,
    user_properties := [(big_key, [])] }

/-! ### Theorems about the embedded code -/

/-- Errors of `check_fixed_header_type` are always `NotKnow`. -/
theorem check_fixed_header_type_err {b : Nat} {e : ProtoError}
    (h : check_fixed_header_type b = .error e) : e = .NotKnow := by
  unfold check_fixed_header_type at h
  split at h <;> simp_all

/-- The options check only looks at the low nibble of its byte. -/
theorem check_fixed_header_options_and15 (b : Nat) (mt : MessageType) :
    check_fixed_header_options b mt
      = check_fixed_header_options (b &&& 15) mt := by
  have h15 : (b &&& 15) &&& 15 = b &&& 15 := by
    rw [Nat.and_assoc]
    norm_num
  unfold check_fixed_header_options
  rw [h15]

/-- `check_fixed_header_options` never produces `FixedHeaderLengthError`. -/
theorem check_fixed_header_options_no_fhle (b : Nat) (mt : MessageType)
    (n : Nat) :
    check_fixed_header_options b mt ≠ .error (.FixedHeaderLengthError n) := by
  intro h
  rw [check_fixed_header_options_and15] at h
  have hb : b &&& 15 < 16 := Nat.lt_succ_of_le Nat.and_le_right
  have key : ∀ k, k < 16 →
      (match check_fixed_header_options k mt with
       | .error e => is_fhle e
       | .ok _ => false) = false := by
    cases mt <;> decide
  have h2 := key (b &&& 15) hb
  rw [h] at h2
  simp [is_fhle] at h2

/-- Errors of the varint loop are always `NotKnow`. -/
theorem check_remain_length_loop_err :
    ∀ (s : List Nat) (shift len f : Nat) (e : ProtoError),
    check_remain_length_loop s shift len f = .error e → e = .NotKnow := by
  intro s
  induction s with
  | nil =>
      intro shift len f e h
      simp only [check_remain_length_loop, Except.error.injEq] at h
      exact h.symm
  | cons b rest ih =>
      intro shift len f e h
      simp only [check_remain_length_loop] at h
      split at h
      · exact absurd h (by simp)
      · split at h
        · simp only [Except.error.injEq] at h
          exact h.symm
        · exact ih _ _ _ _ h

/-- The varint loop agrees with the index-based reference decoder: at byte
index `i` the loop runs with shift `7 * i` and header-length counter
`i + 1`. -/
theorem check_remain_length_loop_spec :
    ∀ (s : List Nat) (i acc : Nat), i ≤ 3 →
    check_remain_length_loop s (7 * i) acc (i + 1)
      = match spec_decode_remaining_length_from s i acc with
        | some (v, c) => .ok (v, c + 1)
        | none => .error .NotKnow := by
  intro s
  induction s with
  | nil => intro i acc hi; rfl
  | cons b rest ih =>
      intro i acc hi
      simp only [check_remain_length_loop, spec_decode_remaining_length_from]
      by_cases hc : b &&& 0x80 = 0
      · simp [hc]
      · rw [if_neg hc, if_neg hc]
        by_cases hi3 : i = 3
        · subst hi3
          rw [if_pos (by omega), if_pos (by omega)]
        · rw [if_neg (by omega), if_neg (by omega)]
          have h7 : 7 * i + 7 = 7 * (i + 1) := by ring
          have h2 : i + 1 + 1 = (i + 1) + 1 := rfl
          rw [h7]
          exact ih (i + 1) (acc + (b &&& 0x7F) <<< (7 * i)) (by omega)

/-- C3: `check_remain_length` decodes the Remaining Length exactly as the
specification describes — accumulate `byte & 0x7F` shifted by `7 * index`,
stop at the first byte with continuation bit `0x80` clear, and fail with a
decode error (`NotKnow`) when no terminating byte appears within 4 bytes
(the shift would pass 21) or the stream ends first; on success the
fixed header records the value and `consumed + 1` as its length. -/
theorem check_remain_length_follows_spec (s : List Nat) (fh : FixedHeader) :
    check_remain_length s fh
      = match spec_decode_remaining_length s with
        | some (v, c) => .ok ((fh.set_remaining_length v).set_len (c + 1))
        | none => .error .NotKnow := by
  unfold check_remain_length spec_decode_remaining_length
  have h := check_remain_length_loop_spec s 0 0 (by omega)
  norm_num at h
  rw [h]
  rcases spec_decode_remaining_length_from s 0 0 with _ | ⟨v, c⟩ <;> simp

/-- C10: for every input stream, `read_fixed_header` never returns the
`FixedHeaderLengthError` variant — its guard `stream_len < 2 && stream_len
> 5` is unsatisfiable, so no input (in particular no 0- or 1-byte input) is
ever rejected through that branch. -/
theorem read_fixed_header_never_fixed_header_length_error
    (s : List Nat) (n : Nat) :
    read_fixed_header s ≠ .err (.FixedHeaderLengthError n) := by
  intro h
  unfold read_fixed_header at h
  rw [if_neg (by omega)] at h
  match s with
  | [] => exact absurd h (by simp)
  | b :: rest =>
      simp only at h
      split at h
      · rename_i mt hmt
        split at h
        · rename_i fh hfh
          unfold check_remain_length at h
          split at h
          · exact absurd h (by simp [Res.ofExcept])
          · rename_i e he
            have := check_remain_length_loop_err _ _ _ _ _ he
            subst this
            simp [Res.ofExcept] at h
        · rename_i e he
          simp only [Res.err.injEq] at h
          subst h
          exact check_fixed_header_options_no_fhle b mt n he
      · rename_i e he
        have := check_fixed_header_type_err he
        subst this
        simp at h

/-- C4 counterexample: the first byte `0x63` is a PUBREL header whose low
nibble is `0b0011`, not the `0b0010` the claim requires, yet
`check_fixed_header_options` accepts it — only bits 2-1 are validated, the
retain bit (and the dup bit) are ignored. -/
theorem pubrel_low_nibble_counterexample :
    (check_fixed_header_options 0x63 .PUBREL).isOk = true
    ∧ 0x63 &&& 0b00001111 ≠ 0b0010 := by
  exact ⟨rfl, by decide⟩

set_option maxRecDepth 8192 in
/-- C4 (amended): fixed-header flag validation per packet type.  For PUBLISH
every dup/qos/retain combination is accepted except QoS bits `11`, which is
`QoSError 3`.  For PUBREL/SUBSCRIBE/UNSUBSCRIBE only bits 2-1 of the low
nibble are checked: the byte is accepted exactly when they equal `01`,
whatever the dup (bit 3) and retain (bit 0) bits are, and rejected with
`NotKnow` otherwise.  For every other packet type the whole low nibble must
be `0b0000`. -/
theorem check_fixed_header_options_low_nibble (b : Nat) (hb : b < 256) :
    (((check_fixed_header_options b .PUBLISH).isOk = true)
      ↔ (b &&& 0b0110) >>> 1 ≠ 3)
    ∧ ((b &&& 0b0110) >>> 1 = 3 →
        check_fixed_header_options b .PUBLISH = .error (.QoSError 3))
    ∧ (∀ mt, mt ∈ [MessageType.PUBREL, MessageType.SUBSCRIBE,
          MessageType.UNSUBSCRIBE] →
        (((check_fixed_header_options b mt).isOk = true)
          ↔ (b &&& 0b0110) >>> 1 = 1)
        ∧ ((b &&& 0b0110) >>> 1 ≠ 1 →
            check_fixed_header_options b mt = .error .NotKnow))
    ∧ (∀ mt, mt ∉ [MessageType.PUBLISH, MessageType.PUBREL,
          MessageType.SUBSCRIBE, MessageType.UNSUBSCRIBE] →
        (((check_fixed_header_options b mt).isOk = true) ↔ b &&& 0b1111 = 0)) := by
  refine ⟨?_, ?_, ?_, ?_⟩ <;> revert b <;> decide

/-- Witness for the amended C4 statement at the concrete byte `0x63`. -/
theorem check_fixed_header_options_low_nibble_witness :
    ((check_fixed_header_options 0x63 MessageType.PUBREL).isOk = true)
      ↔ (0x63 &&& 0b0110) >>> 1 = 1 :=
  (((check_fixed_header_options_low_nibble 0x63 (by decide)).2.2.1
    MessageType.PUBREL (by decide)).1)

/-- `read_u16` inverts the big-endian 2-byte encoding of a value below
65,536. -/
theorem read_u16_u16be (n : Nat) (rest : List Nat) (h : n < 65536) :
    read_u16 (u16be n ++ rest) = .ok (n, rest) := by
  simp only [u16be, List.cons_append, List.nil_append, read_u16,
    Except.ok.injEq, Prod.mk.injEq, and_true]
  omega

/-- `read_mqtt_bytes` inverts the length-prefixed encoding of a field. -/
theorem read_mqtt_bytes_enc (t rest : List Nat) (h : t.length < 65536) :
    read_mqtt_bytes (u16be t.length ++ t ++ rest) = .ok (t, rest) := by
  unfold read_mqtt_bytes
  rw [List.append_assoc, read_u16_u16be t.length (t ++ rest) h]
  simp only
  rw [if_neg (by simp)]
  rw [List.take_left, List.drop_left]

/-- `read_mqtt_string` inverts the length-prefixed encoding of a valid UTF-8
field. -/
theorem read_mqtt_string_enc (t rest : List Nat) (h : t.length < 65536)
    (hu : utf8Valid t = true) :
    read_mqtt_string (u16be t.length ++ t ++ rest) = .ok (t, rest) := by
  unfold read_mqtt_string
  rw [read_mqtt_bytes_enc t rest h]
  simp [hu]

/-- C6: in a PUBLISH packet the identifier is present exactly when the QoS
is positive.  With QoS `AtMostOnce` the builder drops the message id, the
variable header length is `topic_len + 2`, the encoder writes only the
length-prefixed topic, and the decoder reads no identifier; with QoS
`AtLeastOnce` or `ExactlyOnce` the variable header length is
`topic_len + 4`, the encoder appends the 2-byte identifier, and the decoder
reads it right after the topic. -/
theorem publish_identifier_iff_qos_positive
    (topic rest : List Nat) (mid : Nat) (q : QoS)
    (hlen : topic.length < 65536) (hu : utf8Valid topic = true)
    (hmid : mid < 65536) (hq : q ≠ .AtMostOnce) :
    PublishVariableHeader.variable_len topic (some .AtMostOnce)
        = topic.length + 2
    ∧ PublishVariableHeader.variable_len topic (some q) = topic.length + 4
    ∧ (publish_builder_variable_header topic (some mid) .AtMostOnce).encode
        = .ok (u16be topic.length ++ topic, topic.length + 2)
    ∧ (publish_builder_variable_header topic (some mid) q).encode
        = .ok (u16be topic.length ++ topic ++ u16be mid, topic.length + 4)
    ∧ publish_variable_header_decode (u16be topic.length ++ topic ++ rest)
          (some .AtMostOnce)
        = .ok (PublishVariableHeader.new topic none (some .AtMostOnce), rest)
    ∧ publish_variable_header_decode
          (u16be topic.length ++ topic ++ (u16be mid ++ rest)) (some q)
        = .ok (PublishVariableHeader.new topic (some mid) (some q), rest) := by
  refine ⟨rfl, ?_, ?_, ?_, ?_, ?_⟩
  · simp [PublishVariableHeader.variable_len, hq]
  · simp [publish_builder_variable_header, PublishVariableHeader.new,
      PublishVariableHeader.encode, PublishVariableHeader.variable_len]
  · simp [publish_builder_variable_header, hq, PublishVariableHeader.new,
      PublishVariableHeader.encode, PublishVariableHeader.variable_len]
  · unfold publish_variable_header_decode
    rw [read_mqtt_string_enc topic rest hlen hu]
    rfl
  · unfold publish_variable_header_decode
    rw [read_mqtt_string_enc topic (u16be mid ++ rest) hlen hu]
    simp only [if_neg hq]
    rw [read_u16_u16be mid rest hmid]

/-- `TryFrom<u8>` inverts `From<QoS> for u8`. -/
theorem qos_try_from_to_u8 (q : QoS) : qosTryFrom (qosToU8 q) = .ok q := by
  cases q <;> rfl

/-- `Topic::new` rebuilds a well-formed topic from its name and QoS. -/
theorem topic_new_name_qos (t : Topic) (h : wf_topic t) :
    Topic.new t.name t.qos = t := by
  obtain ⟨hl, hlen, hu⟩ := h
  obtain ⟨n, q, l⟩ := t
  simp only at hl
  simp [Topic.new, hl]

/-- Reading one well-formed encoded filter from the front of the SUBSCRIBE
payload yields that topic and continues with the rest of the buffer. -/
theorem read_topics_cons (t : Topic) (s : List Nat) (h : wf_topic t) :
    read_topics (Topic.encodeBytes t ++ s)
      = match read_topics s with
        | .ok ts => .ok (t :: ts)
        | .error e => .error e := by
  obtain ⟨hl, hlen, hu⟩ := h
  have hb : Topic.encodeBytes t ++ s
      = u16be t.name.length ++ t.name ++ (qosToU8 t.qos :: s) := by
    simp [Topic.encodeBytes, hl, List.append_assoc]
  have henc : read_mqtt_string (u16be t.name.length ++ t.name
        ++ (qosToU8 t.qos :: s)) = .ok (t.name, qosToU8 t.qos :: s) :=
    read_mqtt_string_enc t.name (qosToU8 t.qos :: s) hlen hu
  rw [hb]
  simp only [u16be, List.cons_append, List.nil_append] at henc ⊢
  rw [read_topics.eq_def]
  split
  · rename_i hnil
    exact absurd hnil (by simp)
  · rename_i b bs hcons
    injection hcons with hb1 hb2
    subst hb1
    subst hb2
    split
    · rename_i topic_name s1 hs
      rw [henc] at hs
      injection hs with hs
      injection hs with hs1 hs2
      subst hs1
      subst hs2
      split
      · rename_i q s2 hq
        simp only [read_u8, Except.ok.injEq, Prod.mk.injEq] at hq
        obtain ⟨rfl, rfl⟩ := hq
        rw [qos_try_from_to_u8]
        have ht := topic_new_name_qos t ⟨hl, hlen, hu⟩
        simp only [ht]
      · rename_i hq
        simp [read_u8] at hq
    · rename_i hs
      rw [henc] at hs
      exact absurd hs (by simp)

/-- Reading one well-formed encoded name from the front of the UNSUBSCRIBE
payload yields that name and continues with the rest of the buffer. -/
theorem read_unsub_topics_cons (nm s : List Nat)
    (hlen : nm.length < 65536) (hu : utf8Valid nm = true) :
    read_unsub_topics (write_mqtt_string_bytes nm ++ s)
      = match read_unsub_topics s with
        | .ok ts => .ok (nm :: ts)
        | .error e => .error e := by
  have henc : read_mqtt_string (u16be nm.length ++ nm ++ s) = .ok (nm, s) :=
    read_mqtt_string_enc nm s hlen hu
  have hb : write_mqtt_string_bytes nm ++ s = u16be nm.length ++ nm ++ s := by
    simp [write_mqtt_string_bytes, List.append_assoc]
  rw [hb]
  simp only [u16be, List.cons_append, List.nil_append] at henc ⊢
  rw [read_unsub_topics.eq_def]
  split
  · rename_i hnil
    exact absurd hnil (by simp)
  · rename_i b bs hcons
    injection hcons with hb1 hb2
    subst hb1
    subst hb2
    split
    · rename_i topic rest hs
      rw [henc] at hs
      injection hs with hs
      injection hs with hs1 hs2
      subst hs1
      subst hs2
      rfl
    · rename_i hs
      rw [henc] at hs
      exact absurd hs (by simp)

/-- A dangling or truncated length prefix makes `read_mqtt_string` fail with
`NotKnow`. -/
theorem read_mqtt_string_truncated (j : List Nat)
    (hj : truncated_len_field j) : read_mqtt_string j = .error .NotKnow := by
  match j with
  | [] => exact absurd hj (by simp [truncated_len_field])
  | [b] => rfl
  | b0 :: b1 :: r =>
      simp only [truncated_len_field] at hj
      simp [read_mqtt_string, read_mqtt_bytes, read_u16, hj]

/-- A dangling length prefix at the head of the SUBSCRIBE topic loop is
`ReadTopicError`. -/
theorem read_topics_truncated (j : List Nat) (hj : truncated_len_field j) :
    read_topics j = .error .ReadTopicError := by
  match j with
  | [] => exact absurd hj (by simp [truncated_len_field])
  | b :: bs =>
      rw [read_topics.eq_def]
      split
      · rename_i hnil
        exact absurd hnil (by simp)
      · rename_i b' bs' hcons
        injection hcons with hb1 hb2
        subst hb1
        subst hb2
        split
        · rename_i topic_name s1 hs
          rw [read_mqtt_string_truncated _ hj] at hs
          exact absurd hs (by simp)
        · rfl

/-- A dangling length prefix at the head of the UNSUBSCRIBE topic loop
propagates the `NotKnow` read error. -/
theorem read_unsub_topics_truncated (j : List Nat)
    (hj : truncated_len_field j) :
    read_unsub_topics j = .error .NotKnow := by
  match j with
  | [] => exact absurd hj (by simp [truncated_len_field])
  | b :: bs =>
      rw [read_unsub_topics.eq_def]
      split
      · rename_i hnil
        exact absurd hnil (by simp)
      · rename_i b' bs' hcons
        injection hcons with hb1 hb2
        subst hb1
        subst hb2
        split
        · rename_i topic rest hs
          rw [read_mqtt_string_truncated _ hj] at hs
          exact absurd hs (by simp)
        · rename_i e hs
          rw [read_mqtt_string_truncated _ hj] at hs
          injection hs with hs
          rw [hs]

/-- C7: SUBSCRIBE/UNSUBSCRIBE topic-payload decoding loops until the buffer
is empty.  An empty remainder yields the empty filter list; a buffer holding
exactly two well-formed filters yields exactly those two, in order; a buffer
ending in a dangling/truncated length prefix yields a decode error
(`ReadTopicError` in the SUBSCRIBE loop, the propagated `NotKnow` in the
UNSUBSCRIBE loop) instead of a partial list. -/
theorem topic_list_decode (t1 t2 : Topic) (j : List Nat)
    (h1 : wf_topic t1) (h2 : wf_topic t2) (hj : truncated_len_field j) :
    read_topics [] = .ok []
    ∧ read_topics (Topic.encodeBytes t1 ++ Topic.encodeBytes t2)
        = .ok [t1, t2]
    ∧ read_topics (Topic.encodeBytes t1 ++ Topic.encodeBytes t2 ++ j)
        = .error .ReadTopicError
    ∧ read_unsub_topics [] = .ok []
    ∧ read_unsub_topics (write_mqtt_string_bytes t1.name
          ++ write_mqtt_string_bytes t2.name) = .ok [t1.name, t2.name]
    ∧ read_unsub_topics (write_mqtt_string_bytes t1.name
          ++ write_mqtt_string_bytes t2.name ++ j) = .error .NotKnow := by
  obtain ⟨hl1, hlen1, hu1⟩ := h1
  obtain ⟨hl2, hlen2, hu2⟩ := h2
  refine ⟨by rw [read_topics.eq_def], ?_, ?_, by rw [read_unsub_topics.eq_def],
    ?_, ?_⟩
  · rw [show Topic.encodeBytes t1 ++ Topic.encodeBytes t2
        = Topic.encodeBytes t1 ++ (Topic.encodeBytes t2 ++ []) by simp]
    rw [read_topics_cons t1 _ ⟨hl1, hlen1, hu1⟩]
    rw [read_topics_cons t2 [] ⟨hl2, hlen2, hu2⟩]
    rw [show read_topics [] = .ok [] by rw [read_topics.eq_def]]
  · rw [List.append_assoc]
    rw [read_topics_cons t1 _ ⟨hl1, hlen1, hu1⟩]
    rw [read_topics_cons t2 j ⟨hl2, hlen2, hu2⟩]
    rw [read_topics_truncated j hj]
  · rw [show write_mqtt_string_bytes t1.name ++ write_mqtt_string_bytes t2.name
        = write_mqtt_string_bytes t1.name
          ++ (write_mqtt_string_bytes t2.name ++ []) by simp]
    rw [read_unsub_topics_cons t1.name _ hlen1 hu1]
    rw [read_unsub_topics_cons t2.name [] hlen2 hu2]
    rw [show read_unsub_topics [] = .ok [] by rw [read_unsub_topics.eq_def]]
  · rw [List.append_assoc]
    rw [read_unsub_topics_cons t1.name _ hlen1 hu1]
    rw [read_unsub_topics_cons t2.name j hlen2 hu2]
    rw [read_unsub_topics_truncated j hj]

/-- Witness for the topic-list theorem: filters `/a` (QoS 0) and `/b`
(QoS 1), dangling tail `[0x00, 0x05]` (a length prefix promising 5 bytes
with none left). -/
theorem topic_list_decode_witness :
    read_topics [] = .ok []
    ∧ read_topics (Topic.encodeBytes (Topic.new [47, 97] .AtMostOnce)
          ++ Topic.encodeBytes (Topic.new [47, 98] .AtLeastOnce))
        = .ok [Topic.new [47, 97] .AtMostOnce, Topic.new [47, 98] .AtLeastOnce]
    ∧ read_topics (Topic.encodeBytes (Topic.new [47, 97] .AtMostOnce)
          ++ Topic.encodeBytes (Topic.new [47, 98] .AtLeastOnce) ++ [0, 5])
        = .error .ReadTopicError
    ∧ read_unsub_topics [] = .ok []
    ∧ read_unsub_topics
          (write_mqtt_string_bytes (Topic.new [47, 97] .AtMostOnce).name
            ++ write_mqtt_string_bytes (Topic.new [47, 98] .AtLeastOnce).name)
        = .ok [(Topic.new [47, 97] .AtMostOnce).name,
               (Topic.new [47, 98] .AtLeastOnce).name]
    ∧ read_unsub_topics
          (write_mqtt_string_bytes (Topic.new [47, 97] .AtMostOnce).name
            ++ write_mqtt_string_bytes (Topic.new [47, 98] .AtLeastOnce).name
            ++ [0, 5])
        = .error .NotKnow :=
  topic_list_decode (Topic.new [47, 97] .AtMostOnce)
    (Topic.new [47, 98] .AtLeastOnce) [0, 5]
    (by refine ⟨rfl, by decide, by decide⟩)
    (by refine ⟨rfl, by decide, by decide⟩)
    (by simp [truncated_len_field])

/-- Witness for the PUBLISH identifier-presence theorem at topic `/`,
message id 1 and QoS `AtLeastOnce`. -/
theorem publish_identifier_iff_qos_positive_witness :
    PublishVariableHeader.variable_len [47] (some .AtMostOnce)
        = [47].length + 2
    ∧ PublishVariableHeader.variable_len [47] (some .AtLeastOnce)
        = [47].length + 4
    ∧ (publish_builder_variable_header [47] (some 1) .AtMostOnce).encode
        = .ok (u16be [47].length ++ [47], [47].length + 2)
    ∧ (publish_builder_variable_header [47] (some 1) .AtLeastOnce).encode
        = .ok (u16be [47].length ++ [47] ++ u16be 1, [47].length + 4)
    ∧ publish_variable_header_decode (u16be [47].length ++ [47] ++ [])
          (some .AtMostOnce)
        = .ok (PublishVariableHeader.new [47] none (some .AtMostOnce), [])
    ∧ publish_variable_header_decode
          (u16be [47].length ++ [47] ++ (u16be 1 ++ [])) (some .AtLeastOnce)
        = .ok (PublishVariableHeader.new [47] (some 1) (some .AtLeastOnce),
               []) :=
  publish_identifier_iff_qos_positive [47] [] 1 .AtLeastOnce (by decide)
    (by decide) (by decide) (by decide)

/-- C2: the boundary behavior of `encode_remaining_len`.  Because every
branch guard compares with strict `<` against the `*_MAX_LEN` constants, the
boundary values themselves fall into the next branch: 127 is encoded as the
two bytes `[0xFF, 0x00]` (not `[0x7F]`), 16,383 as three bytes, 2,097,151 as
four bytes, and 268,435,455 — the documented maximum — is rejected with
`OutOfMaxRemainingLength`.  The off-boundary values 128, 16,384, 2,097,152
and 268,435,456 behave as the specification says. -/
theorem encode_remaining_len_boundaries :
    encode_remaining_len 127 = .ok ([255, 0], 2)
    ∧ encode_remaining_len 128 = .ok ([128, 1], 2)
    ∧ encode_remaining_len 16383 = .ok ([255, 255, 0], 3)
    ∧ encode_remaining_len 16384 = .ok ([128, 128, 1], 3)
    ∧ encode_remaining_len 2097151 = .ok ([255, 255, 255, 0], 4)
    ∧ encode_remaining_len 2097152 = .ok ([128, 128, 128, 1], 4)
    ∧ encode_remaining_len 268435455
        = .error (.OutOfMaxRemainingLength 268435455)
    ∧ encode_remaining_len 268435456
        = .error (.OutOfMaxRemainingLength 268435456) :=
  ⟨rfl, rfl, rfl, rfl, rfl, rfl, rfl, rfl⟩

/-- C5: decode paths panic on truncated input instead of returning an error:
`read_fixed_header` unwraps `iter.next()` on an empty stream, and the
publish variable-header decoder unwraps `read_u16` when the 2-byte packet
identifier demanded by QoS 1 is missing after the topic. -/
theorem decode_panics_on_truncated_input :
    read_fixed_header [] = .panic
    ∧ publish_variable_header_decode [0, 0] (some .AtLeastOnce) = .panic :=
  ⟨rfl, rfl⟩

/-- `Properties::encode` is the fixed-property bytes followed by the
user-property loop started at the fixed properties' total. -/
theorem properties_encode_decomp (p : Properties) :
    Properties.encode p
      = (properties_fixed_bytes p
          ++ (encode_user_properties p.user_properties
                (properties_fixed_len p)).1,
         (encode_user_properties p.user_properties
            (properties_fixed_len p)).2) := by
  unfold Properties.encode properties_fixed_bytes properties_fixed_len
  rcases p.session_expiry_interval with _ | e
    <;> rcases p.receive_maximum with _ | m <;> simp

/-- When the running total first passes 65,535 at entry `j`, the
user-property loop stops with `OutOfMaxPropertySize` having written exactly
the entries before `j`. -/
theorem encode_user_properties_cross :
    ∀ (ups : List (List Nat × List Nat)) (total j : Nat),
    j < ups.length →
    total + user_properties_len (ups.take (j + 1)) > 65535 →
    (∀ i, i < j → total + user_properties_len (ups.take (i + 1)) ≤ 65535) →
    encode_user_properties ups total
      = ((ups.take j).flatMap user_property_bytes,
         .error .OutOfMaxPropertySize) := by
  intro ups
  induction ups with
  | nil => intro total j hj; exact absurd hj (by simp)
  | cons kv rest ih =>
      intro total j hj hcross hbefore
      obtain ⟨key, value⟩ := kv
      match j with
      | 0 =>
          simp only [List.take_succ_cons, List.take_zero,
            user_properties_len, List.map_cons, List.map_nil, List.sum_cons,
            List.sum_nil] at hcross
          simp only [encode_user_properties]
          rw [if_pos (by omega)]
          simp
      | jj + 1 =>
          have h0 := hbefore 0 (by omega)
          simp only [List.take_succ_cons, List.take_zero,
            user_properties_len, List.map_cons, List.map_nil, List.sum_cons,
            List.sum_nil] at h0
          simp only [encode_user_properties]
          rw [if_neg (by omega)]
          have hrec := ih (total + (1 + 2 + key.length + 2 + value.length)) jj
            (by simpa using hj)
            (by
              simp only [List.take_succ_cons, user_properties_len,
                List.map_cons, List.sum_cons] at hcross
              simp only [user_properties_len]
              omega)
            (by
              intro i hi
              have hb := hbefore (i + 1) (by omega)
              simp only [List.take_succ_cons, user_properties_len,
                List.map_cons, List.sum_cons] at hb
              simp only [user_properties_len]
              omega)
          rw [hrec]
          simp [user_property_bytes]

/-- C8: encoding v5 properties tracks the running total and fails with
`OutOfMaxPropertySize` before the boundary-crossing user property is
written: when entry `j` is the first whose size pushes the total past
65,535, the buffer receives only the fixed properties and the entries
before `j`, and the result is the error. -/
theorem properties_encode_size_bound (p : Properties) (j : Nat)
    (hj : j < p.user_properties.length)
    (hcross : properties_fixed_len p
        + user_properties_len (p.user_properties.take (j + 1)) > 65535)
    (hbefore : ∀ i, i < j → properties_fixed_len p
        + user_properties_len (p.user_properties.take (i + 1)) ≤ 65535) :
    Properties.encode p
      = (properties_fixed_bytes p
          ++ (p.user_properties.take j).flatMap user_property_bytes,
         .error .OutOfMaxPropertySize) := by
  rw [properties_encode_decomp p]
  rw [encode_user_properties_cross p.user_properties (properties_fixed_len p)
    j hj hcross hbefore]

/-- Size of a one-entry user-property list. -/
theorem user_properties_len_singleton (k v : List Nat) :
    user_properties_len [(k, v)] = 1 + 2 + k.length + 2 + v.length := by
  simp [user_properties_len]

/-- Witness for the property-size bound: one user property whose key is
65,531 bytes of `a`, so its entry alone is 65,536 bytes; nothing is written
and encoding fails. -/
theorem properties_encode_size_bound_witness :
    Properties.encode oversized_properties
      = ([], .error .OutOfMaxPropertySize) := by
  have hbk : big_key.length = 65531 := by
    rw [big_key, List.length_replicate]
  have hup : oversized_properties.user_properties = [(big_key, [])] := rfl
  have hfl : properties_fixed_len oversized_properties = 0 := rfl
  have htake : ([((big_key : List Nat), ([] : List Nat))]).take (0 + 1)
      = [(big_key, [])] := rfl
  have hlen1 : ([((big_key : List Nat), ([] : List Nat))]).length = 1 := rfl
  have h := properties_encode_size_bound oversized_properties
    0 (by rw [hup, hlen1]; exact Nat.zero_lt_one)
    (by
      rw [hfl, hup, htake, user_properties_len_singleton, hbk, List.length_nil]
      omega)
    (fun i hi => absurd hi (Nat.not_lt_zero i))
  have hclean : properties_fixed_bytes oversized_properties
      ++ ((oversized_properties.user_properties).take 0).flatMap
          user_property_bytes = [] := rfl
  rw [hclean] at h
  exact h

/-- C9 counterexample: the unknown 1-byte identifier `0x13` makes
`Properties::decode` fail with the generic `NotKnow`, not with
`UnknownProperty`; a user property whose value half is missing fails with
`NotKnow` from the string read, not with `MalformedUserProperty`. -/
theorem properties_decode_error_kind_counterexample :
    Properties.decode [0x13] = .err .NotKnow
    ∧ Properties.decode [0x13] ≠ .err (.UnknownProperty 0x13)
    ∧ Properties.decode [0x26, 0, 1, 97] = .err .NotKnow
    ∧ Properties.decode [0x26, 0, 1, 97] ≠ .err .MalformedUserProperty := by
  have h1 : Properties.decode [0x13] = .err .NotKnow := by
    rw [Properties.decode, Properties.decode_loop.eq_def]
    norm_num
  have hread1 : read_mqtt_string [0, 1, 97] = .ok ([97], []) := rfl
  have h2 : Properties.decode [0x26, 0, 1, 97] = .err .NotKnow := by
    rw [Properties.decode, Properties.decode_loop.eq_def]
    split
    · rename_i hnil
      exact absurd hnil (by simp)
    · rename_i b' rest' hcons
      injection hcons with hb1 hb2
      subst hb1
      subst hb2
      rw [if_neg (by norm_num), if_neg (by norm_num), if_pos rfl]
      split
      · rename_i hs
        rw [hread1] at hs
        injection hs with hs
        injection hs with hs1 hs2
        subst hs1
        subst hs2
        rfl
      · rename_i hs
        rw [hread1] at hs
        exact absurd hs (by simp)
  exact ⟨h1, by rw [h1]; simp, h2, by rw [h2]; simp⟩

/-- C9 (amended): when decoding v5 properties, any 1-byte identifier other
than `0x11`, `0x12` and `0x26` makes decode fail immediately with the
generic `NotKnow` error (unknown identifiers are rejected, not ignored),
and a user property whose value half is missing entirely fails with
`NotKnow` propagated from the value read. -/
theorem properties_decode_rejects (b : Nat) (rest k : List Nat)
    (hb : b < 256) (h11 : b ≠ 0x11) (h12 : b ≠ 0x12) (h26 : b ≠ 0x26)
    (hklen : k.length < 65536) (hk : utf8Valid k = true) :
    Properties.decode (b :: rest) = .err .NotKnow
    ∧ Properties.decode (0x26 :: (u16be k.length ++ k)) = .err .NotKnow := by
  constructor
  · rw [Properties.decode, Properties.decode_loop.eq_def]
    split
    · rename_i hnil
      exact absurd hnil (by simp)
    · rename_i b' rest' hcons
      injection hcons with hb1 hb2
      subst hb1
      subst hb2
      rw [if_neg h11, if_neg h12, if_neg h26]
  · rw [Properties.decode, Properties.decode_loop.eq_def]
    have henc : read_mqtt_string (u16be k.length ++ k) = .ok (k, []) := by
      have := read_mqtt_string_enc k [] hklen hk
      simpa using this
    split
    · rename_i hnil
      exact absurd hnil (by simp)
    · rename_i b' rest' hcons
      injection hcons with hb1 hb2
      subst hb1
      subst hb2
      rw [if_neg (by norm_num), if_neg (by norm_num), if_pos rfl]
      split
      · rename_i hs
        rw [henc] at hs
        injection hs with hs
        injection hs with hs1 hs2
        subst hs1
        subst hs2
        rfl
      · rename_i hs
        rw [henc] at hs
        exact absurd hs (by simp)

/-- Witness for the amended C9 statement: identifier `0x13` and the
key-only user property `0x26 0x00 0x01 a`. -/
theorem properties_decode_rejects_witness :
    Properties.decode [0x13] = .err .NotKnow
    ∧ Properties.decode (0x26 :: (u16be ([97] : List Nat).length ++ [97]))
        = .err .NotKnow := by
  have h := properties_decode_rejects 0x13 [] [97] (by decide) (by decide)
    (by decide) (by decide) (by decide) (by decide)
  exact h

/-- C1: the QoS-0 publish round trip fails.  `publish_fixed_header_encode`
never writes the PUBLISH type nibble in its `AtMostOnce` arm, so the encoded
frame starts with byte `0x00`, whose type nibble 0 makes
`Publish::decode` fail with `NotKnow` instead of reproducing the packet. -/
theorem publish_qos0_roundtrip_fails :
    Publish.encode publish_qos0_example = .ok (publish_qos0_example_bytes, 22)
    ∧ Publish.decode publish_qos0_example_bytes = .err .NotKnow :=
  ⟨rfl, rfl⟩

end WalleMqtt
